import Mathlib

/-!
Shallow Lean embedding of the Offline AI-Powered RAG Knowledge Portal
(src/document_processor.py, src/vector_db.py, src/database.py,
src/knowledge_manager.py, src/rag_engine.py) and proofs about it.

Texts are modelled as `List Char`, file contents as `List Nat` (bytes),
Python `None`-able strings as `Option String`.  Fallible external
collaborators (text extraction, embedding model, SQLite, disk writes)
are passed in as explicit function/flag parameters.  Machine integers
are `Int`/`Nat` (the Python code never overflows in the claimed range).
-/

namespace RAGPortal

/-! ## Chunker (src/document_processor.py, DocumentProcessor.chunk_text) -/

/-- Python `str.strip()` on a list of characters: drop whitespace from
both ends. -/
def pyStrip (xs : List Char) : List Char :=
  ((xs.dropWhile Char.isWhitespace).reverse.dropWhile Char.isWhitespace).reverse

/-- Python `s.rfind(c)`: index of the last occurrence of `c`, `-1` if
absent. -/
def pyRfind (xs : List Char) (c : Char) : Int :=
  (List.range xs.length).foldl
    (fun acc i => if xs.get? i = some c then (i : Int) else acc) (-1)

/-- Python slice `xs[a:b]` (step 1): negative indices count from the
end, out-of-range indices are clamped. -/
def pySlice (xs : List Char) (a b : Int) : List Char :=
  let n : Int := xs.length
  let lo : Int := if a < 0 then max 0 (n + a) else min a n
  let hi : Int := if b < 0 then max 0 (n + b) else min b n
  (xs.take hi.toNat).drop lo.toNat

/-- One chunk record produced by `chunk_text` (fields `chunk_id`,
`text`, `start_pos`, `end_pos`, `length` of the Python dict). -/
structure Chunk where
  chunk_id : Nat
  text : List Char
  start_pos : Int
  end_pos : Int
  length : Nat
deriving DecidableEq

/-- One iteration of the `while start < len(text)` loop body of
`chunk_text`: build the window `text[start:start+chunk_size]`, trim it
to the last `.`/newline when that break point lies past
`chunk_size * 0.5` (modelled exactly as `2 * bp > chunk_size`), append
the chunk when its stripped text is non-empty, and return the next
`start = end - chunk_overlap` together with the updated counter and
accumulator. -/
def chunkStep (text : List Char) (cs ov : Int) (start : Int) (cid : Nat)
    (acc : List Chunk) : Int × Nat × List Chunk :=
  let end0 := start + cs
  let ct0 := pySlice text start end0
  let p :=
    if end0 < (text.length : Int) then
      let bp := max (pyRfind ct0 '.') (pyRfind ct0 '\n')
      if 2 * bp > cs then (pySlice ct0 0 (bp + 1), start + bp + 1)
      else (ct0, end0)
    else (ct0, end0)
  if pyStrip p.1 ≠ [] then
    (p.2 - ov, cid + 1, acc ++ [⟨cid, pyStrip p.1, start, p.2, p.1.length⟩])
  else (p.2 - ov, cid, acc)

/-- The `while start < len(text)` loop of `chunk_text`, with explicit
fuel: the Python loop has no built-in progress guarantee, so a run that
makes no progress exhausts any fuel and yields `none` (reflecting
non-termination). -/
def chunkLoop (text : List Char) (cs ov : Int) (fuel : Nat) (start : Int)
    (cid : Nat) (acc : List Chunk) : Option (List Chunk) :=
  if start < (text.length : Int) then
    match fuel with
    | 0 => none
    | Nat.succ fuel1 =>
      let s := chunkStep text cs ov start cid acc
      chunkLoop text cs ov fuel1 s.1 s.2.1 s.2.2
  else some acc

/-- `chunk_text(text, chunk_size, chunk_overlap)` with the parameters
already resolved (Python substitutes config defaults for falsy
arguments before the loop).  When every iteration advances `start` by
at least one, `text.length + 1` iterations suffice, so a `none` result
means the loop did not terminate within any linear bound. -/
def chunkText (text : List Char) (cs ov : Int) : Option (List Chunk) :=
  chunkLoop text cs ov (text.length + 1) 0 0 []

/-! ## Vector store (src/vector_db.py, VectorDatabase) -/

/-- A vector-metadata record as handed to `add_vectors` (the dict built
in `KnowledgeManager.add_document`), before `vector_id` is assigned.
Only the fields the verified claims inspect are modelled (`file_hash`,
`department`); the remaining dict keys (`file_name`, `text`, chunk
positions) are carried by no claim. -/
structure MetaIn where
  file_hash : String
  department : Option String
deriving DecidableEq

/-- A stored metadata record: the input record after `add_vectors` has
set its `vector_id`. -/
structure MetaRec where
  file_hash : String
  vector_id : Nat
  department : Option String
deriving DecidableEq

/-- The `VectorDatabase` state: the FAISS `IndexIDMap` as an id-to-
embedding association, the parallel `metadata` list, and the fixed
`dimension`.  Embedding entries are opaque integers (no claim inspects
the float values, only dimensions and counts). -/
structure VDB where
  dimension : Nat
  index : List (Nat × List Int)
  metadata : List MetaRec
deriving DecidableEq

/-- Lines 84-90 of `add_vectors`: `start_id = 0`, or
`max(m.get('vector_id', 0) for m in self.metadata) + 1` when the
metadata list is non-empty. -/
def startId (db : VDB) : Nat :=
  if db.metadata.isEmpty then 0
  else (db.metadata.map (·.vector_id)).foldl max 0 + 1

/-- `VectorDatabase.add_vectors(vectors, metadata)`.  Faithful to the
source: an empty batch is a no-op; `np.array` rejects a ragged batch
before any mutation; a wrong row dimension raises `ValueError` before
any mutation; otherwise ids `start_id, start_id+1, ...` are assigned,
the index is extended, and the metadata loop appends one record per
`ids[i]` — when more records than vectors are supplied the loop hits an
`IndexError` only after the index and the first `len(vectors)` records
were already inserted (partial mutation), and when fewer are supplied
no error is raised at all.  Returns the mutated state and the raised
exception, if any. -/
def addVectors (db : VDB) (vectors : List (List Int)) (metas : List MetaIn) :
    VDB × Except String Unit :=
  if vectors.length = 0 then (db, .ok ())
  else if vectors.any (fun w => w.length != vectors.headI.length) then
    (db, .error "inhomogeneous embedding batch")
  else if vectors.headI.length ≠ db.dimension then
    (db, .error "Vector dimension mismatch")
  else
    let ids := List.range' (startId db) vectors.length
    let db1 : VDB :=
      { db with
        index := db.index ++ ids.zip vectors,
        metadata := db.metadata ++
          (metas.zip ids).map (fun q => ⟨q.1.file_hash, q.2, q.1.department⟩) }
    if metas.length ≤ vectors.length then (db1, .ok ())
    else (db1, .error "IndexError: list index out of range")

/-- `VectorDatabase.delete_by_file_hash(file_hash)`: collect the
`vector_id`s of matching metadata records, remove those ids from the
index and the matching records from the metadata, and return how many
were removed. -/
def deleteByFileHash (db : VDB) (h : String) : VDB × Nat :=
  let idsToRemove := (db.metadata.filter (fun m => m.file_hash == h)).map (·.vector_id)
  if idsToRemove.isEmpty then (db, 0)
  else
    ({ db with
        index := db.index.filter (fun q => !(idsToRemove.contains q.1)),
        metadata := db.metadata.filter (fun m => m.file_hash != h) },
      idsToRemove.length)

/-- `VectorDatabase.get_stats()['total_vectors']`, i.e. `index.ntotal`. -/
def totalVectors (db : VDB) : Nat := db.index.length

/-! ### Helper lemmas on `foldl max` (bounding live vector ids) -/

theorem le_foldl_max (l : List Nat) (a : Nat) : a ≤ l.foldl max a := by
  induction l generalizing a with
  | nil => exact Nat.le_refl a
  | cons x xs ih => exact Nat.le_trans (Nat.le_max_left a x) (ih (max a x))

theorem mem_le_foldl_max {x : Nat} {l : List Nat} (hx : x ∈ l) (a : Nat) :
    x ≤ l.foldl max a := by
  induction l generalizing a with
  | nil => cases hx
  | cons y ys ih =>
    rcases List.mem_cons.mp hx with rfl | hmem
    · exact Nat.le_trans (Nat.le_max_right a x) (le_foldl_max ys (max a x))
    · exact ih hmem (max a y)

/-- Every `vector_id` live in the metadata is strictly below the next
`start_id` the store would allocate. -/
theorem live_id_lt_startId {db : VDB} {m : MetaRec} (hm : m ∈ db.metadata) :
    m.vector_id < startId db := by
  unfold startId
  have hne : ¬ db.metadata.isEmpty := by
    cases hdb : db.metadata with
    | nil => rw [hdb] at hm; cases hm
    | cons a l => simp [List.isEmpty]
  rw [if_neg hne]
  have : m.vector_id ≤ (db.metadata.map (·.vector_id)).foldl max 0 :=
    mem_le_foldl_max (List.mem_map_of_mem (·.vector_id) hm) 0
  omega

/-- C1 (counterexample): the claim "no vector_id issued by an add call
equals a vector_id issued by any earlier add in the store's lifetime,
even when the record holding that earlier id was deleted" is false on
the code: starting from an empty store, adding one vector issues id 0,
deleting that document empties the metadata, and the next add rescans
the now-empty metadata and issues id 0 again. -/
theorem addVectors_reuses_id_after_delete :
    (addVectors (⟨1, [], []⟩ : VDB) [[0]] [⟨"a", none⟩]).1.metadata.map
        (·.vector_id) = [0] ∧
    (addVectors
        (deleteByFileHash
          (addVectors (⟨1, [], []⟩ : VDB) [[0]] [⟨"a", none⟩]).1 "a").1
        [[7]] [⟨"b", none⟩]).1.metadata.map (·.vector_id) = [0] := by
  decide

/-- The metadata after an `add_vectors` call is either untouched (empty
batch, ragged batch, or dimension error) or extended by one record per
zipped `(input record, fresh id)` pair. -/
theorem addVectors_metadata_cases (db : VDB) (vectors : List (List Int))
    (metas : List MetaIn) :
    (addVectors db vectors metas).1.metadata = db.metadata ∨
    (addVectors db vectors metas).1.metadata =
      db.metadata ++ (metas.zip (List.range' (startId db) vectors.length)).map
        (fun q => (⟨q.1.file_hash, q.2, q.1.department⟩ : MetaRec)) := by
  unfold addVectors
  by_cases h0 : vectors.length = 0
  · rw [if_pos h0]; left; rfl
  · rw [if_neg h0]
    by_cases h1 : (vectors.any fun w => w.length != vectors.headI.length) = true
    · rw [if_pos h1]; left; rfl
    · rw [if_neg h1]
      by_cases h2 : vectors.headI.length ≠ db.dimension
      · rw [if_pos h2]; left; rfl
      · rw [if_neg h2]
        by_cases h3 : metas.length ≤ vectors.length
        · right; simp only [if_pos h3]
        · right; simp only [if_neg h3]

/-- C1 (amended): every `vector_id` issued by an `add_vectors` call is
distinct from the `vector_id` of every record that is live in the
metadata at the time of the call — `start_id` is one more than the
maximum live id.  (Ids of fully deleted records may be reused, as the
counterexample shows.) -/
theorem addVectors_fresh_wrt_live (db : VDB) (vectors : List (List Int))
    (metas : List MetaIn) {m mNew : MetaRec}
    (hm : m ∈ db.metadata)
    (hNew : mNew ∈ (addVectors db vectors metas).1.metadata)
    (hNotOld : mNew ∉ db.metadata) :
    mNew.vector_id ≠ m.vector_id := by
  have hlt : m.vector_id < startId db := live_id_lt_startId hm
  have hge : startId db ≤ mNew.vector_id := by
    rcases addVectors_metadata_cases db vectors metas with hc | hc
    · rw [hc] at hNew; exact absurd hNew hNotOld
    · rw [hc] at hNew
      rcases List.mem_append.mp hNew with hold | hnewpart
      · exact absurd hold hNotOld
      · rcases List.mem_map.mp hnewpart with ⟨q, hq, hqeq⟩
        have hzip := List.of_mem_zip (a := q.1) (b := q.2) (by simpa using hq)
        have hid := (List.mem_range'_1.mp hzip.2).1
        rw [← hqeq]
        exact hid
  omega

/-- C1 (witness for the amended theorem): a store holding the live
record with id 0 issues id 1 for the next record, distinct from 0. -/
theorem addVectors_fresh_wrt_live_witness :
    (⟨"b", 1, none⟩ : MetaRec).vector_id ≠ (⟨"a", 0, none⟩ : MetaRec).vector_id :=
  addVectors_fresh_wrt_live
    (⟨1, [(0, [0])], [⟨"a", 0, none⟩]⟩ : VDB) [[1]] [⟨"b", none⟩]
    (by decide) (by decide) (by decide)

/-- C6 (counterexample): the claim "a call whose number of embeddings
differs from its number of metadata records fails with a
DimensionMismatch error and leaves index and metadata unchanged" is
false on the code: one embedding with zero metadata records raises no
error and the index grows by one vector. -/
theorem addVectors_count_mismatch_not_checked :
    (addVectors (⟨1, [], []⟩ : VDB) [[0]] []).2 = .ok () ∧
    (addVectors (⟨1, [], []⟩ : VDB) [[0]] []).1.index = [(0, [0])] :=
  ⟨rfl, rfl⟩

/-- C6 (amended): a non-empty, non-ragged batch whose row dimension
differs from the store's fixed dimension fails with the `ValueError`
("Vector dimension mismatch") and leaves index and metadata completely
unchanged; the embedding/record counts themselves are not compared. -/
theorem addVectors_dim_mismatch (db : VDB) (vectors : List (List Int))
    (metas : List MetaIn)
    (hne : vectors.length ≠ 0)
    (hrag : (vectors.any fun w => w.length != vectors.headI.length) = false)
    (hdim : vectors.headI.length ≠ db.dimension) :
    addVectors db vectors metas = (db, .error "Vector dimension mismatch") := by
  unfold addVectors
  rw [if_neg hne, if_neg (by simp [hrag]), if_pos hdim]

/-- C6 (witness for the amended theorem): adding one 1-dimensional
vector to a 2-dimensional store fails and changes nothing. -/
theorem addVectors_dim_mismatch_witness :
    addVectors (⟨2, [], []⟩ : VDB) [[5]] [⟨"a", none⟩] =
      ((⟨2, [], []⟩ : VDB), .error "Vector dimension mismatch") :=
  addVectors_dim_mismatch (⟨2, [], []⟩ : VDB) [[5]] [⟨"a", none⟩]
    (by decide) (by decide) (by decide)

/-! ## Document registry (src/database.py, Database) and knowledge
manager (src/knowledge_manager.py, KnowledgeManager) -/

/-- A row of the `documents` table, restricted to the columns the
manager reads back (`file_name`, `file_path`, `file_hash`,
`chunk_count`, `department`). -/
structure DocRow where
  file_name : String
  file_path : String
  file_hash : String
  chunk_count : Nat
  department : Option String
deriving DecidableEq

/-- `Database.get_document_by_hash`: `SELECT * FROM documents WHERE
file_hash = ?`, first row or `None`. -/
def getDocumentByHash (rows : List DocRow) (h : String) : Option DocRow :=
  rows.find? (fun r => r.file_hash == h)

/-- `Database.delete_document`: `DELETE FROM documents WHERE file_hash
= ?` (the function's boolean return value is ignored by the manager). -/
def dbDeleteDocument (rows : List DocRow) (h : String) : List DocRow :=
  rows.filter (fun r => r.file_hash != h)

/-- Raw file bytes. -/
abbrev Content := List Nat

/-- The managed documents directory as a path-to-content association. -/
abbrev FileStore := List (String × Content)

def setFile (fs : FileStore) (p : String) (c : Content) : FileStore :=
  fs.filter (fun e => e.1 != p) ++ [(p, c)]

def removeFile (fs : FileStore) (p : String) : FileStore :=
  fs.filter (fun e => e.1 != p)

def getFile (fs : FileStore) (p : String) : Option Content :=
  (fs.find? (fun e => e.1 == p)).map (·.2)

/-- Combined mutable state the `KnowledgeManager` acts on: the
in-memory vector store, its last persisted on-disk copy, the SQLite
`documents` table, and the managed documents directory. -/
structure KBState where
  vdb : VDB
  disk : VDB
  registry : List DocRow
  files : FileStore
deriving DecidableEq

/-- Result statuses of `KnowledgeManager.add_document` (the `status`
key of the returned dict: `'success'`, `'exists'`, `'error'`). -/
inductive AddStatus
  | success
  | alreadyExists
  | error (msg : String)
deriving DecidableEq

/-- One chunk as delivered by `DocumentProcessor.process_document`; the
pipeline claims only use its text. -/
structure ChunkInfo where
  text : List Char
deriving DecidableEq

/-- `except`-branch cleanup of `add_document`: `if dest_path.exists():
dest_path.unlink()`. -/
def cleanupDest (st : KBState) (dest : String) : KBState :=
  { st with files := removeFile st.files dest }

/-- `KnowledgeManager.add_document(file_path, uploaded_by, permissions,
department)`.  External collaborators are explicit parameters: `md5`
is the content-hash function (a pure function of the raw bytes),
`process` is `DocumentProcessor.process_document` restricted to its
fallible extraction/chunking outcome, `embed` is
`EmbeddingGenerator.generate_embeddings`, and `saveOk`/`dbOk` say
whether `vector_db.save()` / `database.add_document` raise.  Control
flow is the source's: hash, registry lookup with early `exists` return,
copy into the managed directory, then the `try` block (process, embed,
`add_vectors`, save, registry insert) whose `except` arm removes the
copied file and reports `error` without undoing anything else. -/
def addDocument (md5 : Content → String)
    (process : Content → Except String (List ChunkInfo))
    (embed : List (List Char) → Except String (List (List Int)))
    (saveOk : Bool) (dbOk : Bool)
    (st : KBState) (fileName : String) (content : Content)
    (department : Option String) : KBState × AddStatus :=
  let fileHash := md5 content
  match getDocumentByHash st.registry fileHash with
  | some _ => (st, .alreadyExists)
  | none =>
    let dest := fileName
    let st1 : KBState := { st with files := setFile st.files dest content }
    match process content with
    | .error e => (cleanupDest st1 dest, .error e)
    | .ok chunks =>
      match embed (chunks.map (·.text)) with
      | .error e => (cleanupDest st1 dest, .error e)
      | .ok embeddings =>
        let vmeta := chunks.map (fun _ => MetaIn.mk fileHash department)
        let added := addVectors st1.vdb embeddings vmeta
        let st2 : KBState := { st1 with vdb := added.1 }
        match added.2 with
        | .error e => (cleanupDest st2 dest, .error e)
        | .ok _ =>
          if saveOk then
            let st3 : KBState := { st2 with disk := st2.vdb }
            if dbOk then
              ({ st3 with registry := st3.registry ++
                  [⟨fileName, dest, fileHash, chunks.length, department⟩] },
                .success)
            else (cleanupDest st3 dest, .error "registry insert failed")
          else (cleanupDest st2 dest, .error "vector store save failed")

/-- `KnowledgeManager.delete_document(file_hash)`: delete from the
vector store, delete the registry row, then look the document up (in
the already-purged registry) to find the stored file, unlink it if
found, persist the vector store, and return whether any vectors were
removed. -/
def kmDeleteDocument (st : KBState) (fileHash : String) : KBState × Bool :=
  let deleted := deleteByFileHash st.vdb fileHash
  let reg1 := dbDeleteDocument st.registry fileHash
  let files1 :=
    match getDocumentByHash reg1 fileHash with
    | some doc => removeFile st.files doc.file_path
    | none => st.files
  ({ st with
      vdb := deleted.1
      registry := reg1
      files := files1
      disk := deleted.1 },
    decide (0 < deleted.2))

/-- `KnowledgeManager.update_document(file_hash, uploaded_by)`: delete
the old version, then fetch the registry row by hash to find the stored
file, and re-add it (the source does not forward the department on
re-add). -/
def kmUpdateDocument (md5 : Content → String)
    (process : Content → Except String (List ChunkInfo))
    (embed : List (List Char) → Except String (List (List Int)))
    (saveOk : Bool) (dbOk : Bool)
    (st : KBState) (fileHash : String) : KBState × AddStatus :=
  let st1 := (kmDeleteDocument st fileHash).1
  match getDocumentByHash st1.registry fileHash with
  | none => (st1, .error "Document not found")
  | some doc =>
    match getFile st1.files doc.file_path with
    | none => (st1, .error "File not found on disk")
    | some content =>
      addDocument md5 process embed saveOk dbOk st1 doc.file_name content none

/-! ### Lemmas about registry and file-store lookups -/

/-- Looking a hash up right after deleting its rows finds nothing. -/
theorem getDocumentByHash_after_delete (rows : List DocRow) (h : String) :
    getDocumentByHash (dbDeleteDocument rows h) h = none := by
  unfold getDocumentByHash dbDeleteDocument
  rw [List.find?_eq_none]
  intro r hr
  have h2 := (List.mem_filter.mp hr).2
  simp only [bne_iff_ne, ne_eq] at h2
  simp [h2]

/-- A path just removed from the file store no longer resolves. -/
theorem getFile_removeFile (fs : FileStore) (p : String) :
    getFile (removeFile fs p) p = none := by
  have hfind : (removeFile fs p).find? (fun e => e.1 == p) = none := by
    rw [List.find?_eq_none]
    intro x hx
    have h2 := (List.mem_filter.mp hx).2
    simp only [bne_iff_ne, ne_eq] at h2
    simp [h2]
  unfold getFile
  rw [hfind]
  rfl

/-- C3: `delete_document` never deletes the stored file — it deletes
the registry row first and only then asks the registry for the row (to
learn the file path), so the lookup always misses and the unlink branch
is dead code.  The claim says the stored file is deleted. -/
theorem kmDeleteDocument_files_unchanged (st : KBState) (fileHash : String) :
    (kmDeleteDocument st fileHash).1.files = st.files := by
  simp only [kmDeleteDocument, getDocumentByHash_after_delete]

/-- C4: `update_document` can never reach its re-insert step: it first
runs `delete_document`, which removes the registry row for the hash,
and then looks the hash up in the registry, so it always returns the
error `'Document not found'` — even for a document that was known and
whose stored file exists.  The claim says a non-error result is
returned. -/
theorem kmUpdateDocument_always_not_found (md5 : Content → String)
    (process : Content → Except String (List ChunkInfo))
    (embed : List (List Char) → Except String (List (List Int)))
    (saveOk dbOk : Bool) (st : KBState) (fileHash : String) :
    (kmUpdateDocument md5 process embed saveOk dbOk st fileHash).2 =
      .error "Document not found" := by
  have h1 : getDocumentByHash (kmDeleteDocument st fileHash).1.registry fileHash =
      none := by
    have h2 : (kmDeleteDocument st fileHash).1.registry =
        dbDeleteDocument st.registry fileHash := rfl
    rw [h2]
    exact getDocumentByHash_after_delete st.registry fileHash
  simp only [kmUpdateDocument, h1]

/-- C2 (counterexample): the claim "after an Error return the registry
knows the hash iff the document's vectors are present, in particular no
vectors remain" is false on the code: when the registry insert (the
last step) fails, `add_document` reports `error` and removes the copied
file, but the vectors inserted just before stay in the store while the
registry does not know the hash. -/
theorem addDocument_registry_failure_leaves_vectors :
    (addDocument (fun _ => "H") (fun _ => .ok [⟨['x']⟩])
      (fun ts => .ok (ts.map (fun _ => [0]))) true false
      (⟨⟨1, [], []⟩, ⟨1, [], []⟩, [], []⟩ : KBState) "f.txt" [1, 2] none).2 =
      .error "registry insert failed" ∧
    getDocumentByHash (addDocument (fun _ => "H") (fun _ => .ok [⟨['x']⟩])
      (fun ts => .ok (ts.map (fun _ => [0]))) true false
      (⟨⟨1, [], []⟩, ⟨1, [], []⟩, [], []⟩ : KBState) "f.txt" [1, 2]
      none).1.registry "H" = none ∧
    (addDocument (fun _ => "H") (fun _ => .ok [⟨['x']⟩])
      (fun ts => .ok (ts.map (fun _ => [0]))) true false
      (⟨⟨1, [], []⟩, ⟨1, [], []⟩, [], []⟩ : KBState) "f.txt" [1, 2]
      none).1.vdb.metadata.map (·.file_hash) = ["H"] :=
  ⟨rfl, rfl, rfl⟩

/-- C2 (amended): whenever `add_document` returns `error`, the copied
working file has been removed and the registry does not know the
document's hash; vectors that were already inserted before the failing
step are, however, not rolled back (see the counterexample). -/
theorem addDocument_error_cleanup (md5 : Content → String)
    (process : Content → Except String (List ChunkInfo))
    (embed : List (List Char) → Except String (List (List Int)))
    (saveOk dbOk : Bool) (st : KBState) (fileName : String) (content : Content)
    (department : Option String) (e : String)
    (herr : (addDocument md5 process embed saveOk dbOk st fileName content
      department).2 = .error e) :
    getFile (addDocument md5 process embed saveOk dbOk st fileName content
      department).1.files fileName = none ∧
    getDocumentByHash (addDocument md5 process embed saveOk dbOk st fileName
      content department).1.registry (md5 content) = none := by
  unfold addDocument at herr ⊢
  cases hfind : getDocumentByHash st.registry (md5 content) with
  | some d =>
    simp only [hfind] at herr
    exact AddStatus.noConfusion herr
  | none =>
    simp only [hfind] at herr ⊢
    cases hp : process content with
    | error e2 =>
      simp only [hp] at herr ⊢
      exact ⟨getFile_removeFile _ _, hfind⟩
    | ok chunks =>
      simp only [hp] at herr ⊢
      cases he : embed (chunks.map (·.text)) with
      | error e2 =>
        simp only [he] at herr ⊢
        exact ⟨getFile_removeFile _ _, hfind⟩
      | ok embeddings =>
        simp only [he] at herr ⊢
        cases hv : (addVectors st.vdb embeddings
            (chunks.map fun _ => MetaIn.mk (md5 content) department)).2 with
        | error e2 =>
          simp only [hv] at herr ⊢
          exact ⟨getFile_removeFile _ _, hfind⟩
        | ok u =>
          simp only [hv] at herr ⊢
          by_cases hs : saveOk = true
          · rw [if_pos hs] at herr ⊢
            by_cases hd : dbOk = true
            · rw [if_pos hd] at herr
              exact AddStatus.noConfusion herr
            · rw [if_neg hd] at herr ⊢
              exact ⟨getFile_removeFile _ _, hfind⟩
          · rw [if_neg hs] at herr ⊢
            exact ⟨getFile_removeFile _ _, hfind⟩

/-- C2 (witness for the amended theorem): a failing extraction step
returns `error` with the copied file removed and the hash unknown. -/
theorem addDocument_error_cleanup_witness :
    getFile (addDocument (fun _ => "H") (fun _ => .error "boom")
      (fun _ => .ok []) true true (⟨⟨1, [], []⟩, ⟨1, [], []⟩, [], []⟩ : KBState)
      "f.txt" [1] none).1.files "f.txt" = none ∧
    getDocumentByHash (addDocument (fun _ => "H") (fun _ => .error "boom")
      (fun _ => .ok []) true true (⟨⟨1, [], []⟩, ⟨1, [], []⟩, [], []⟩ : KBState)
      "f.txt" [1] none).1.registry "H" = none :=
  addDocument_error_cleanup (fun _ => "H") (fun _ => .error "boom")
    (fun _ => .ok []) true true (⟨⟨1, [], []⟩, ⟨1, [], []⟩, [], []⟩ : KBState)
    "f.txt" [1] none "boom" rfl

/-- A successful `add_document` leaves the content hash findable in the
registry (the inserted row is the last one). -/
theorem addDocument_success_registry (md5 : Content → String)
    (process : Content → Except String (List ChunkInfo))
    (embed : List (List Char) → Except String (List (List Int)))
    (saveOk dbOk : Bool) (st : KBState) (fileName : String) (content : Content)
    (department : Option String)
    (hsucc : (addDocument md5 process embed saveOk dbOk st fileName content
      department).2 = .success) :
    ∃ d, getDocumentByHash (addDocument md5 process embed saveOk dbOk st
      fileName content department).1.registry (md5 content) = some d := by
  unfold addDocument at hsucc ⊢
  cases hfind : getDocumentByHash st.registry (md5 content) with
  | some d =>
    simp only [hfind] at hsucc
    exact AddStatus.noConfusion hsucc
  | none =>
    simp only [hfind] at hsucc ⊢
    cases hp : process content with
    | error e2 =>
      simp only [hp] at hsucc
      exact AddStatus.noConfusion hsucc
    | ok chunks =>
      simp only [hp] at hsucc ⊢
      cases he : embed (chunks.map (·.text)) with
      | error e2 =>
        simp only [he] at hsucc
        exact AddStatus.noConfusion hsucc
      | ok embeddings =>
        simp only [he] at hsucc ⊢
        cases hv : (addVectors st.vdb embeddings
            (chunks.map fun _ => MetaIn.mk (md5 content) department)).2 with
        | error e2 =>
          simp only [hv] at hsucc
          exact AddStatus.noConfusion hsucc
        | ok u =>
          simp only [hv] at hsucc ⊢
          by_cases hs : saveOk = true
          · rw [if_pos hs] at hsucc ⊢
            by_cases hd : dbOk = true
            · rw [if_pos hd] at hsucc ⊢
              refine ⟨⟨fileName, fileName, md5 content, chunks.length,
                department⟩, ?_⟩
              unfold getDocumentByHash at hfind ⊢
              rw [List.find?_append, hfind]
              simp [List.find?]
            · rw [if_neg hd] at hsucc
              exact AddStatus.noConfusion hsucc
          · rw [if_neg hs] at hsucc
            exact AddStatus.noConfusion hsucc

/-- C7: after a first `add_document` call on some content returned
`success`, a second call with byte-identical content — under any file
name and with any department, and whatever the external collaborators
would do — returns `exists` (AlreadyExists), leaves the whole state
(in particular the vector store) untouched, and therefore preserves
`total_vectors`; `success` was returned only for the first call. -/
theorem addDocument_dedup (md5 : Content → String)
    (p1 : Content → Except String (List ChunkInfo))
    (e1 : List (List Char) → Except String (List (List Int)))
    (s1 d1 : Bool)
    (p2 : Content → Except String (List ChunkInfo))
    (e2 : List (List Char) → Except String (List (List Int)))
    (s2 d2 : Bool)
    (st : KBState) (n1 n2 : String) (content : Content)
    (dep1 dep2 : Option String)
    (hsucc : (addDocument md5 p1 e1 s1 d1 st n1 content dep1).2 = .success) :
    (addDocument md5 p2 e2 s2 d2 (addDocument md5 p1 e1 s1 d1 st n1 content
      dep1).1 n2 content dep2).2 = .alreadyExists ∧
    (addDocument md5 p2 e2 s2 d2 (addDocument md5 p1 e1 s1 d1 st n1 content
      dep1).1 n2 content dep2).1 = (addDocument md5 p1 e1 s1 d1 st n1 content
      dep1).1 ∧
    totalVectors (addDocument md5 p2 e2 s2 d2 (addDocument md5 p1 e1 s1 d1 st
      n1 content dep1).1 n2 content dep2).1.vdb =
      totalVectors (addDocument md5 p1 e1 s1 d1 st n1 content dep1).1.vdb := by
  obtain ⟨d, hd⟩ := addDocument_success_registry md5 p1 e1 s1 d1 st n1 content
    dep1 hsucc
  set st1 := (addDocument md5 p1 e1 s1 d1 st n1 content dep1).1 with hst1
  unfold addDocument
  simp only [hd]
  exact ⟨trivial, trivial, trivial⟩

/-- C7 (witness): a concrete first call succeeds and the second call
with the same bytes under another name returns `exists` and changes
nothing. -/
theorem addDocument_dedup_witness :
    (addDocument (fun _ => "H") (fun _ => .ok [⟨['y']⟩])
      (fun ts => .ok (ts.map (fun _ => [3]))) true true
      (addDocument (fun _ => "H") (fun _ => .ok [⟨['x']⟩])
        (fun ts => .ok (ts.map (fun _ => [0]))) true true
        (⟨⟨1, [], []⟩, ⟨1, [], []⟩, [], []⟩ : KBState) "a.txt" [1, 2] none).1
      "b.txt" [1, 2] (some "D")).2 = .alreadyExists ∧
    (addDocument (fun _ => "H") (fun _ => .ok [⟨['y']⟩])
      (fun ts => .ok (ts.map (fun _ => [3]))) true true
      (addDocument (fun _ => "H") (fun _ => .ok [⟨['x']⟩])
        (fun ts => .ok (ts.map (fun _ => [0]))) true true
        (⟨⟨1, [], []⟩, ⟨1, [], []⟩, [], []⟩ : KBState) "a.txt" [1, 2] none).1
      "b.txt" [1, 2] (some "D")).1 =
      (addDocument (fun _ => "H") (fun _ => .ok [⟨['x']⟩])
        (fun ts => .ok (ts.map (fun _ => [0]))) true true
        (⟨⟨1, [], []⟩, ⟨1, [], []⟩, [], []⟩ : KBState) "a.txt" [1, 2] none).1 ∧
    totalVectors (addDocument (fun _ => "H") (fun _ => .ok [⟨['y']⟩])
      (fun ts => .ok (ts.map (fun _ => [3]))) true true
      (addDocument (fun _ => "H") (fun _ => .ok [⟨['x']⟩])
        (fun ts => .ok (ts.map (fun _ => [0]))) true true
        (⟨⟨1, [], []⟩, ⟨1, [], []⟩, [], []⟩ : KBState) "a.txt" [1, 2] none).1
      "b.txt" [1, 2] (some "D")).1.vdb =
      totalVectors (addDocument (fun _ => "H") (fun _ => .ok [⟨['x']⟩])
        (fun ts => .ok (ts.map (fun _ => [0]))) true true
        (⟨⟨1, [], []⟩, ⟨1, [], []⟩, [], []⟩ : KBState) "a.txt" [1, 2]
        none).1.vdb :=
  addDocument_dedup (fun _ => "H") (fun _ => .ok [⟨['x']⟩])
    (fun ts => .ok (ts.map (fun _ => [0]))) true true
    (fun _ => .ok [⟨['y']⟩]) (fun ts => .ok (ts.map (fun _ => [3]))) true true
    (⟨⟨1, [], []⟩, ⟨1, [], []⟩, [], []⟩ : KBState) "a.txt" "b.txt" [1, 2]
    none (some "D") rfl

/-! ## Retrieval filter (src/rag_engine.py, RAGEngine._filter_results) -/

/-- A search hit as seen by the filter: a metadata dict of which the
filter reads only the `department` key (`results` entries carry more
keys, but `_filter_results` inspects only `res.get('department')`). -/
structure Hit where
  department : Option String
deriving DecidableEq

/-- Python truthiness of an optional string: `None` and `''` are falsy. -/
def truthyStr : Option String → Bool
  | none => false
  | some s => s != ""

/-- `RAGEngine._filter_results(results, user_role, user_department)`:
admins get everything; everyone else keeps exactly the hits satisfying
`user_department and doc_dept == user_department`. -/
def filterResults (results : List Hit) (userRole : String)
    (userDepartment : Option String) : List Hit :=
  if userRole == "admin" then results
  else results.filter
    (fun r => truthyStr userDepartment && (r.department == userDepartment))

/-- C8: the department-isolation policy.  An `admin` requester receives
every hit unchanged; a non-admin requester with a non-empty department
`d` receives exactly the hits tagged `some d` (different tags and
untagged `none` hits are dropped); a non-admin requester with no
department configured receives zero hits; and the output is always a
sublist of the input, so surviving hits keep their relative order. -/
theorem filterResults_policy :
    (∀ (results : List Hit) (dept : Option String),
      filterResults results "admin" dept = results) ∧
    (∀ (results : List Hit) (role : String) (d : String),
      role ≠ "admin" → d ≠ "" →
      filterResults results role (some d) =
        results.filter (fun r => r.department == some d)) ∧
    (∀ (results : List Hit) (role : String), role ≠ "admin" →
      filterResults results role none = []) ∧
    (∀ (results : List Hit) (role : String) (dept : Option String),
      (filterResults results role dept).Sublist results) := by
  refine ⟨?_, ?_, ?_, ?_⟩
  · intro results dept
    simp [filterResults]
  · intro results role d hrole hd
    unfold filterResults
    rw [if_neg (by simp [hrole])]
    congr 1
    funext r
    simp [truthyStr, hd]
  · intro results role hrole
    unfold filterResults
    rw [if_neg (by simp [hrole])]
    simp [truthyStr]
  · intro results role dept
    unfold filterResults
    split
    · exact List.Sublist.refl results
    · exact List.filter_sublist results

/-- C8 (witness): a viewer in department X sees exactly the X-tagged
hit out of hits tagged X, Y and untagged. -/
theorem filterResults_policy_witness :
    filterResults [⟨some "X"⟩, ⟨some "Y"⟩, ⟨none⟩] "viewer" (some "X") =
      [⟨some "X"⟩] :=
  (filterResults_policy.2.1 [⟨some "X"⟩, ⟨some "Y"⟩, ⟨none⟩] "viewer" "X"
    (by decide) (by decide)).trans (by decide)

/-- C10: a non-admin requester whose department is the empty string
receives zero hits, even when hits carry an empty-string department
tag, because the filter demands the requester department be truthy
(non-`None`, non-empty) besides equal to the hit's tag. -/
theorem filterResults_empty_department_strict :
    (∀ (results : List Hit) (role : String), role ≠ "admin" →
      filterResults results role (some "") = []) ∧
    (∀ (results : List Hit) (role : String) (dept : Option String) (hit : Hit),
      role ≠ "admin" → hit ∈ filterResults results role dept →
      truthyStr dept = true ∧ hit.department = dept) := by
  constructor
  · intro results role hrole
    unfold filterResults
    rw [if_neg (by simp [hrole])]
    simp [truthyStr]
  · intro results role dept hit hrole hmem
    unfold filterResults at hmem
    rw [if_neg (by simp [hrole])] at hmem
    have h2 := (List.mem_filter.mp hmem).2
    rw [Bool.and_eq_true] at h2
    exact ⟨h2.1, by simpa using h2.2⟩

/-- C10 (witness): a viewer with department `''` gets nothing from a
hit list containing an `''`-tagged hit. -/
theorem filterResults_empty_department_strict_witness :
    filterResults [⟨some ""⟩, ⟨none⟩] "viewer" (some "") = [] :=
  filterResults_empty_department_strict.1 [⟨some ""⟩, ⟨none⟩] "viewer"
    (by decide)

/-! ## Chunker theorems (claims C5 and C9) -/

/-- Peeling one iteration of the chunk loop when it still has fuel and
`start` is inside the text. -/
theorem chunkLoop_succ (text : List Char) (cs ov : Int) (f : Nat) (start : Int)
    (cid : Nat) (acc : List Chunk) (h : start < (text.length : Int)) :
    chunkLoop text cs ov (f + 1) start cid acc =
      chunkLoop text cs ov f (chunkStep text cs ov start cid acc).1
        (chunkStep text cs ov start cid acc).2.1
        (chunkStep text cs ov start cid acc).2.2 := by
  rw [chunkLoop.eq_def, if_pos h]

/-- The chunk loop returns its accumulator once `start` has reached the
end of the text. -/
theorem chunkLoop_exit (text : List Char) (cs ov : Int) (f : Nat) (start : Int)
    (cid : Nat) (acc : List Chunk) (h : ¬ start < (text.length : Int)) :
    chunkLoop text cs ov f start cid acc = some acc := by
  rw [chunkLoop.eq_def, if_neg h]

/-- `text[0:b]` is the whole text once `b` reaches its length. -/
theorem pySlice_all (xs : List Char) (b : Int) (hb : (xs.length : Int) ≤ b) :
    pySlice xs 0 b = xs := by
  have hnn : (0 : Int) ≤ (xs.length : Int) := Int.natCast_nonneg _
  simp only [pySlice]
  rw [if_neg (lt_irrefl 0), if_neg (by omega : ¬ b < 0)]
  rw [min_eq_left hnn, min_eq_right hb]
  simp

/-- C5: `chunk_text` does not clamp the overlap and therefore does not
terminate when `chunk_overlap ≥ chunk_size`: on the text `"aaaa"` with
`chunk_size = 2` and `chunk_overlap = 2`, every iteration recomputes
`start = (start + 2) - 2 = start`, so the loop never advances and no
amount of fuel produces a result.  The claim (and the spec's clamp)
says `start` strictly increases and the loop terminates. -/
theorem chunkText_no_clamp_diverges :
    (∀ (fuel cid : Nat) (acc : List Chunk),
      chunkLoop ['a', 'a', 'a', 'a'] 2 2 fuel 0 cid acc = none) ∧
    chunkText ['a', 'a', 'a', 'a'] 2 2 = none := by
  have main : ∀ (fuel cid : Nat) (acc : List Chunk),
      chunkLoop ['a', 'a', 'a', 'a'] 2 2 fuel 0 cid acc = none := by
    intro fuel
    induction fuel with
    | zero => intro cid acc; rfl
    | succ n ih =>
      intro cid acc
      exact ih (cid + 1) (acc ++ [⟨cid, ['a', 'a'], 0, 2, 2⟩])
  exact ⟨main, main (4 + 1) 0 []⟩

/-- C9 (counterexample): the claim "every non-empty text shorter than
`chunk_size` yields exactly one chunk" is false on the code: the text
`"aaaa"` (length 4) with `chunk_size = 5` and `chunk_overlap = 3` is
shorter than the chunk size yet yields two chunks, because after the
first full-text chunk the loop restarts at `start = 5 - 3 = 2`, which
is still inside the text. -/
theorem chunkText_short_text_two_chunks :
    (chunkText ['a', 'a', 'a', 'a'] 5 3).map List.length = some 2 := by decide

/-- C9 (amended): the empty text yields zero chunks; and a non-empty
text shorter than `chunk_size` yields exactly one chunk spanning the
whole text provided the text's stripped form is non-empty (an
all-whitespace text yields zero chunks) and
`length(text) + chunk_overlap ≤ chunk_size` (otherwise the next window
starts inside the text again and further chunks are emitted, as the
counterexample shows). -/
theorem chunkText_edge_cases :
    (∀ cs ov : Int, chunkText [] cs ov = some []) ∧
    (∀ (text : List Char) (cs ov : Int), text ≠ [] →
      (text.length : Int) < cs → (text.length : Int) + ov ≤ cs →
      pyStrip text ≠ [] →
      chunkText text cs ov = some [⟨0, pyStrip text, 0, cs, text.length⟩]) := by
  constructor
  · intro cs ov; rfl
  · intro text cs ov hne hlt hov hstrip
    have h0 : (0 : Int) < (text.length : Int) := by
      have := List.length_pos.mpr hne
      omega
    have hstep : chunkStep text cs ov 0 0 [] =
        (cs - ov, 1, [⟨0, pyStrip text, 0, cs, text.length⟩]) := by
      simp only [chunkStep, zero_add]
      rw [if_neg (by omega : ¬ (cs < (text.length : Int)))]
      rw [pySlice_all text cs (by omega)]
      simp [hstrip]
    unfold chunkText
    rw [chunkLoop_succ text cs ov text.length 0 0 [] h0, hstep]
    exact chunkLoop_exit text cs ov text.length (cs - ov) 1 _ (by omega)

/-- C9 (witness for the amended theorem): `"ab"` with chunk size 5 and
overlap 2 yields the single chunk spanning the whole text. -/
theorem chunkText_edge_cases_witness :
    chunkText ['a', 'b'] 5 2 = some [⟨0, ['a', 'b'], 0, 5, 2⟩] :=
  chunkText_edge_cases.2 ['a', 'b'] 5 2 (by decide) (by decide) (by decide)
    (by decide)

end RAGPortal
